import Mathlib

/-!
Verification of the daily-contest-bot pipeline (src/bot/main.py and
src/bot/contest_noti_slackbot.py) against its natural-language
specification.  The Python code is shallowly embedded: pure fragments
become Lean functions over `List Char` / `String`, the network calls are
modelled by `Except Unit` inputs (an `Except.error` input is a raised
exception caught by the corresponding Python `try`/`except` block), and
each orchestrator cycle is a pure function from the loaded checkpoint and
the two fetch results to the stored checkpoint plus an event trace.
-/

/-! ## Python string primitives (modelled over `List Char`) -/

/-- Whitespace characters stripped by Python's `str.strip()` (ASCII part). -/
def isPySpace (c : Char) : Bool :=
  c == ' ' || c == '\t' || c == '\n' || c == '\r' || c == '\x0b' || c == '\x0c'

/-- `listStartsWith p l` is Python's `l.startswith(p)` on char lists. -/
def listStartsWith : List Char → List Char → Bool
  | [], _ => true
  | _ :: _, [] => false
  | p :: ps, c :: cs => p == c && listStartsWith ps cs

/-- Python's `s.startswith(p)`. -/
def pyStartsWith (s p : String) : Bool :=
  listStartsWith p.data s.data

/-- `listIsInfix n h` is Python's `n in h` (substring containment). -/
def listIsInfix (needle : List Char) : List Char → Bool
  | [] => needle.isEmpty
  | c :: rest => listStartsWith needle (c :: rest) || listIsInfix needle rest

/-- Python's `s.strip()`: drop leading and trailing whitespace. -/
def pyStrip (s : String) : String :=
  String.mk (((s.data.dropWhile isPySpace).reverse.dropWhile isPySpace).reverse)

/-- Left-to-right non-overlapping replacement, the semantics of Python's
`str.replace(old, new)` for non-empty `old`.  The first argument is fuel;
calling with fuel = length of the subject list is always sufficient.
(Structural recursion on the fuel keeps the definition kernel-reducible.) -/
def replaceAux (old new : List Char) : Nat → List Char → List Char
  | 0, l => l
  | _ + 1, [] => []
  | fuel + 1, c :: rest =>
    if listStartsWith old (c :: rest) && !old.isEmpty then
      new ++ replaceAux old new fuel (List.drop old.length (c :: rest))
    else
      c :: replaceAux old new fuel rest

/-- Python's `s.replace(old, new)` (for the non-empty `old` used in the bot). -/
def pyReplace (s old new : String) : String :=
  String.mk (replaceAux old.data new.data s.data.length s.data)

/-- Split a char list on a separator character, Python's `s.split(sep)`
for a one-character separator: every occurrence splits, empty pieces kept. -/
def splitOnCharList (sep : Char) : List Char → List (List Char)
  | [] => [[]]
  | c :: rest =>
    match splitOnCharList sep rest with
    | [] => if c == sep then [[], []] else [[c]]
    | h :: t => if c == sep then [] :: h :: t else (c :: h) :: t

/-- Python's `s.split('~')` as used in `get_competition_period`. -/
def splitOnTilde (s : String) : List String :=
  (splitOnCharList '~' s.data).map String.mk

/-- Python's `s.rstrip('/')`. -/
def pyRstripSlash (s : String) : String :=
  String.mk ((s.data.reverse.dropWhile (fun c => c == '/')).reverse)

/-! ## The clock-time regex `\d{1,2}:\d{2}` of `re.sub` -/

/-- Try to match `\d:\d\d` at the head of the list; on success return the
remainder after the match. -/
def matchClock1 : List Char → Option (List Char)
  | d1 :: c :: m1 :: m2 :: rest =>
    if d1.isDigit && c == ':' && m1.isDigit && m2.isDigit then some rest else none
  | _ => none

/-- Try to match `\d{1,2}:\d{2}` at the head of the list (greedy: the
two-digit hour is preferred, as in Python's regex engine); on success
return the remainder after the match. -/
def matchClock (cs : List Char) : Option (List Char) :=
  match cs with
  | d1 :: d2 :: c :: m1 :: m2 :: rest =>
    if d1.isDigit && d2.isDigit && c == ':' && m1.isDigit && m2.isDigit then some rest
    else matchClock1 cs
  | _ => matchClock1 cs

/-- `re.sub(r'\d\x7b1,2\x7d:\d\x7b2\x7d', '', s)`: scan left to right,
deleting every clock-time match.  Fuel-driven for kernel reducibility;
fuel = list length always suffices since a match consumes at least four
characters and a non-match advances by one. -/
def stripClockAux : Nat → List Char → List Char
  | 0, l => l
  | _ + 1, [] => []
  | fuel + 1, c :: rest =>
    match matchClock (c :: rest) with
    | some r => stripClockAux fuel r
    | none => c :: stripClockAux fuel rest

/-- Remove embedded clock-time substrings from a string. -/
def stripClockTimes (s : String) : String :=
  String.mk (stripClockAux s.data.length s.data)

/-! ## Python `datetime` (naive, field-lexicographic comparison) -/

/-- A Python `datetime.datetime` value (the fields the bot uses). -/
structure PyDateTime where
  year : Nat
  month : Nat
  day : Nat
  hour : Nat
  minute : Nat
  second : Nat
deriving DecidableEq

/-- Python's `<` on `datetime` values: field-lexicographic. -/
def PyDateTime.ltB (a b : PyDateTime) : Bool :=
  if a.year ≠ b.year then a.year < b.year
  else if a.month ≠ b.month then a.month < b.month
  else if a.day ≠ b.day then a.day < b.day
  else if a.hour ≠ b.hour then a.hour < b.hour
  else if a.minute ≠ b.minute then a.minute < b.minute
  else decide (a.second < b.second)

/-- Leap-year rule used by `datetime` for day-of-month validation. -/
def isLeapYear (y : Nat) : Bool :=
  y % 4 == 0 && (y % 100 != 0 || y % 400 == 0)

/-- Days in a month, for `datetime`'s day-of-month validation. -/
def daysInMonth (y m : Nat) : Nat :=
  if m == 2 then (if isLeapYear y then 29 else 28)
  else if m == 4 || m == 6 || m == 9 || m == 11 then 30
  else 31

/-- Numeric value of a digit character. -/
def digitVal (c : Char) : Nat := c.toNat - '0'.toNat

/-- Parse exactly four digits (strptime's `%Y`). -/
def parseYear4 : List Char → Option (Nat × List Char)
  | a :: b :: c :: d :: rest =>
    if a.isDigit && b.isDigit && c.isDigit && d.isDigit then
      some (1000 * digitVal a + 100 * digitVal b + 10 * digitVal c + digitVal d, rest)
    else none
  | _ => none

/-- Parse one or two digits whose value lies in `[lo, hi]`, preferring the
two-digit reading — the behaviour of strptime's `%m`/`%d`/`%H`/`%M`/`%S`
field regexes when the field is followed by a non-digit separator. -/
def parse2or1 (lo hi : Nat) : List Char → Option (Nat × List Char)
  | [] => none
  | [a] =>
    if a.isDigit && decide (lo ≤ digitVal a) && decide (digitVal a ≤ hi) then
      some (digitVal a, [])
    else none
  | a :: b :: rest =>
    if a.isDigit && b.isDigit && decide (lo ≤ 10 * digitVal a + digitVal b)
        && decide (10 * digitVal a + digitVal b ≤ hi) then
      some (10 * digitVal a + digitVal b, rest)
    else if a.isDigit && decide (lo ≤ digitVal a) && decide (digitVal a ≤ hi) then
      some (digitVal a, b :: rest)
    else none

/-- Consume one expected literal character. -/
def expectChar (c : Char) : List Char → Option (List Char)
  | x :: rest => if x == c then some rest else none
  | [] => none

/-- `datetime.strptime(s, "%Y-%m-%d %H:%M:%S UTC")`: returns `none` where
Python raises `ValueError` (wrong shape, out-of-range field, or a day that
does not exist in the month), `some` on success.  The whole input must be
consumed, as with `strptime`. -/
def parseDeadline (s : String) : Option PyDateTime := do
  let (y, r1) ← parseYear4 s.data
  let r2 ← expectChar '-' r1
  let (mo, r3) ← parse2or1 1 12 r2
  let r4 ← expectChar '-' r3
  let (d, r5) ← parse2or1 1 31 r4
  let r6 ← expectChar ' ' r5
  let (h, r7) ← parse2or1 0 23 r6
  let r8 ← expectChar ':' r7
  let (mi, r9) ← parse2or1 0 59 r8
  let r10 ← expectChar ':' r9
  let (sec, r11) ← parse2or1 0 59 r10
  let r12 ← expectChar ' ' r11
  let r13 ← expectChar 'U' r12
  let r14 ← expectChar 'T' r13
  let r15 ← expectChar 'C' r14
  if r15.isEmpty && decide (1 ≤ y) && decide (1 ≤ d) && decide (d ≤ daysInMonth y mo) then
    pure ⟨y, mo, d, h, mi, sec⟩
  else none

/-- Zero-padded two-digit field of `strftime`. -/
def pad2 (n : Nat) : String :=
  if n < 10 then "0" ++ Nat.repr n else Nat.repr n

/-- Zero-padded four-digit year of `strftime`'s `%Y`. -/
def pad4 (n : Nat) : String :=
  if n < 10 then "000" ++ Nat.repr n
  else if n < 100 then "00" ++ Nat.repr n
  else if n < 1000 then "0" ++ Nat.repr n
  else Nat.repr n

/-- `deadline.strftime("%Y-%m-%d %H:%M:%S UTC")`. -/
def fmtDeadline (d : PyDateTime) : String :=
  pad4 d.year ++ "-" ++ pad2 d.month ++ "-" ++ pad2 d.day ++ " " ++
    pad2 d.hour ++ ":" ++ pad2 d.minute ++ ":" ++ pad2 d.second ++ " UTC"

/-! ## The competition record (the Python dict's fields; per-platform
fields are `Option`, a missing dict key is `none`) -/

/-- A competition record as built by the fetchers and stored in
`competition_data.json`. -/
structure Competition where
  platform : String
  name : String
  url : String
  description : Option String := none
  deadline : Option String := none
  category : Option String := none
  reward : Option String := none
  keywords : Option String := none
  period : Option String := none
  imageUrl : Option String := none
deriving DecidableEq

/-! ## DiffEngine: `get_new_competitions` (main.py) and
`find_new_competitions` (contest_noti_slackbot.py) -/

/-- main.py `get_new_competitions`: `saved_urls` is the set of urls of the
saved records, `new_urls` the current urls minus `saved_urls`, and the
result keeps the current records whose url is in `new_urls`. -/
def get_new_competitions (current_competitions saved_competitions : List Competition) :
    List Competition :=
  let saved_urls := saved_competitions.map (fun comp => comp.url)
  let new_urls :=
    (current_competitions.map (fun comp => comp.url)).filter
      (fun u => !saved_urls.contains u)
  current_competitions.filter (fun comp => new_urls.contains comp.url)

/-- contest_noti_slackbot.py `find_new_competitions`: same set difference,
computed from `current_urls` and `previous_urls`. -/
def find_new_competitions (current_competitions previous_competitions : List Competition) :
    List Competition :=
  let current_urls := current_competitions.map (fun comp => comp.url)
  let previous_urls := previous_competitions.map (fun comp => comp.url)
  let new_urls := current_urls.filter (fun u => !previous_urls.contains u)
  current_competitions.filter (fun comp => new_urls.contains comp.url)

/-! ## FieldExtractor: `get_competition_period` (both variants) -/

/-- The label searched for in text nodes of the schedule page. -/
def periodLabel : String := "대회 기간 :"

/-- The full label prefix removed from the found text node. -/
def periodLabelFull : String := "- 대회 기간 : "

/-- The fixed "period information not found" sentinel string. -/
def periodSentinel : String := "기간 정보를 찾을 수 없습니다."

/-- The `soup.find(string=lambda text: text and '대회 기간 :' in text)`
predicate on one text node. -/
def hasPeriodLabel (t : String) : Bool :=
  listIsInfix periodLabel.data t.data

/-- The processing main.py applies to the found text node: strip the label
prefix and whitespace, delete clock times, and when the result splits into
exactly two parts on a tilde re-join them as `start ~ end`. -/
def main_process_period (t : String) : String :=
  let period := pyStrip (pyReplace t periodLabelFull "")
  let cleaned := stripClockTimes period
  match splitOnTilde cleaned with
  | [p1, p2] => pyStrip p1 ++ " ~ " ++ pyStrip p2
  | _ => cleaned

/-- main.py `get_competition_period`.  The argument models the fetch and
parse of the schedule page: `Except.error` is any exception raised inside
the `try` block (caught, logged, and reported as `None`), `Except.ok` is
the list of text nodes of the fetched page in document order. -/
def main_get_competition_period : Except Unit (List String) → Option String
  | Except.error _ => none
  | Except.ok nodes =>
    match nodes.find? hasPeriodLabel with
    | some t => some (main_process_period t)
    | none => some periodSentinel

/-- contest_noti_slackbot.py `get_competition_period`: identical except
that the found text node is only label-stripped and trimmed (no clock-time
removal, no tilde re-join). -/
def slack_get_competition_period : Except Unit (List String) → Option String
  | Except.error _ => none
  | Except.ok nodes =>
    match nodes.find? hasPeriodLabel with
    | some t => some (pyStrip (pyReplace t periodLabelFull ""))
    | none => some periodSentinel

/-! ## SourceFetcher (structured-API / Kaggle variant) -/

/-- URL normalization on a raw Kaggle reference (main.py lines 122-125 and
contest_noti_slackbot.py lines 126-129, identical code): a reference that
already starts with `http` is used verbatim, anything else is prefixed. -/
def kaggleCompetitionUrl (ref : String) : String :=
  if pyStartsWith ref "http" then ref
  else "https://www.kaggle.com/competitions/" ++ ref

/-- One raw item of `api.competitions_list()` (the fields the bot reads).
`imageUrl` stands for the result of the inner best-effort image-scraping
`try` block of main.py, which is driven by a further network fetch and
never affects whether the record is kept. -/
structure RawKaggleComp where
  ref : String
  title : String
  description : String
  deadline : PyDateTime
  category : String
  reward : String
  imageUrl : Option String := none
deriving DecidableEq

/-- Processing of one raw Kaggle item: kept iff its deadline is strictly
after `now`, with normalized url and formatted deadline string. -/
def processKaggleComp (now : PyDateTime) (comp : RawKaggleComp) : Option Competition :=
  if now.ltB comp.deadline then
    some { platform := "Kaggle"
           name := comp.title
           description := some comp.description
           url := kaggleCompetitionUrl comp.ref
           deadline := some (fmtDeadline comp.deadline)
           category := some comp.category
           reward := some ("$" ++ comp.reward)
           imageUrl := comp.imageUrl }
  else none

/-- main.py `get_kaggle_competitions`.  The argument models the whole
`try` body up to and including `api.competitions_list()`: any exception
(authentication failure, network failure, ...) is the `Except.error` case
and yields the empty list, exactly as the surrounding `except` clause
returns `[]`. -/
def get_kaggle_competitions (fetch : Except Unit (List RawKaggleComp))
    (now : PyDateTime) : List Competition :=
  match fetch with
  | Except.error _ => []
  | Except.ok comps => comps.filterMap (processKaggleComp now)

/-! ## SourceFetcher (HTML-scrape / Dacon variant) -/

/-- `urljoin(base, rel)` restricted to the shapes the bot meets: an
already-absolute `rel` is kept, otherwise it is resolved against the base
origin.  (The general RFC 3986 resolution of `urllib.parse.urljoin` is not
needed for any claim.) -/
def pyUrljoin (base rel : String) : String :=
  if pyStartsWith rel "http" then rel else base ++ rel

/-- One parsed `div.comp` entry block of the Dacon listing page.  A `none`
field means the corresponding element/text was absent, which in the Python
code raises inside the per-entry `try` and skips the entry (for the status
div the code tests explicitly instead).  `schedulePage` models the nested
fetch of the entry's schedule page, fed to `get_competition_period`. -/
structure RawDaconEntry where
  statusText : Option String
  name : Option String
  keywords : Option String
  href : Option String
  img : Option (Option String × Option String)
  schedulePage : Except Unit (List String)

/-- Dacon thumbnail extraction: `src` or else `data-src` of the entry's
image element, resolved to absolute form. -/
def daconImage (img : Option (Option String × Option String)) : Option String :=
  match img with
  | none => none
  | some (src, dataSrc) =>
    match (match src with | some s => some s | none => dataSrc) with
    | none => none
    | some u =>
      if pyStartsWith u "http://" || pyStartsWith u "https://" then some u
      else some (pyUrljoin "https://dacon.io" u)

/-- Processing of one Dacon entry block (main.py lines 252-292): kept only
when the status div exists and its text contains the "accepting entries"
marker; any missing structural element skips the entry. -/
def processDaconEntry (entry : RawDaconEntry) : Option Competition :=
  match entry.statusText with
  | none => none
  | some st =>
    if listIsInfix "참가신청중".data st.data then
      match entry.name, entry.keywords, entry.href with
      | some nm, some kw, some href =>
        let full_link := pyUrljoin "https://dacon.io" href
        some { platform := "Dacon"
               name := pyStrip nm
               keywords := some (pyStrip kw)
               url := full_link
               period := main_get_competition_period entry.schedulePage
               imageUrl := daconImage entry.img }
      | _, _, _ => none
    else none

/-- main.py `get_dacon_competitions`: the argument models the listing
fetch and parse; any exception there is caught by the outer `except` and
yields the empty list. -/
def get_dacon_competitions (fetch : Except Unit (List RawDaconEntry)) :
    List Competition :=
  match fetch with
  | Except.error _ => []
  | Except.ok entries => entries.filterMap processDaconEntry

/-! ## Orchestrator: `check_new_competitions` (both variants)

Each cycle is modelled as a pure function from the loaded checkpoint and
the two (already degraded-on-failure) fetch results to the checkpoint
contents after the cycle together with the trace of observable phase
events, in execution order. -/

/-- Observable events of one orchestrator cycle, in execution order. -/
inductive Event where
  | load : Event
  | fetch : Event
  | diff : Event
  | save : List Competition → Event
  | notify : Competition → Event
  | notifyNone : Event
deriving DecidableEq

/-- Is this event a checkpoint write? -/
def Event.isSaveB : Event → Bool
  | Event.save _ => true
  | _ => false

/-- Is this event a delivered notification (per-record or "nothing new")? -/
def Event.isNotificationB : Event → Bool
  | Event.notify _ => true
  | Event.notifyNone => true
  | _ => false

/-- Does some per-record notification occur strictly before a later
checkpoint write in the trace? -/
def notifyPrecedesSave : List Event → Bool
  | [] => false
  | Event.notify _ :: rest => rest.any Event.isSaveB || notifyPrecedesSave rest
  | _ :: rest => notifyPrecedesSave rest

/-- main.py `check_new_competitions` (lines 446-477): load, fetch both
sources, and if nothing at all was fetched return early (no save, no
notification); otherwise diff, notify each new record, then save the
freshly fetched set. -/
def main_check_new_competitions (saved kaggle dacon : List Competition) :
    List Competition × List Event :=
  let current := kaggle ++ dacon
  if current.isEmpty then
    (saved, [Event.load, Event.fetch])
  else
    let newComps := get_new_competitions current saved
    (current,
      [Event.load, Event.fetch, Event.diff] ++ newComps.map Event.notify ++
        [Event.save current])

/-- contest_noti_slackbot.py `check_new_competitions` (lines 370-404):
load, fetch, diff, save the fresh set unconditionally, then either notify
once per new record or send the single "no new competitions" message. -/
def slack_check_new_competitions (previous kaggle dacon : List Competition) :
    List Competition × List Event :=
  let current := kaggle ++ dacon
  let newComps := find_new_competitions current previous
  (current,
    [Event.load, Event.fetch, Event.diff, Event.save current] ++
      (if newComps.isEmpty then [Event.notifyNone] else newComps.map Event.notify))

/-! ## Retention: `clean_competition_data` (main.py lines 480-506) -/

/-- The retention predicate: a Kaggle record is kept iff its deadline
parses and is strictly after `now`; every other (Dacon) record is kept. -/
def keepCompetition (now : PyDateTime) (comp : Competition) : Bool :=
  if comp.platform == "Kaggle" then
    match comp.deadline with
    | none => false
    | some s =>
      match parseDeadline s with
      | none => false
      | some dl => now.ltB dl
  else true

/-- The pruning loop of `clean_competition_data`: builds the cleaned list,
and raises (`Except.error`) at the first Kaggle record whose `deadline`
key is missing or fails `strptime`; the exception aborts the whole loop. -/
def cleanLoop (now : PyDateTime) : List Competition → Except Unit (List Competition)
  | [] => Except.ok []
  | comp :: rest =>
    if comp.platform == "Kaggle" then
      match comp.deadline with
      | none => Except.error ()
      | some s =>
        match parseDeadline s with
        | none => Except.error ()
        | some dl =>
          match cleanLoop now rest with
          | Except.error e => Except.error e
          | Except.ok r => Except.ok (if now.ltB dl then comp :: r else r)
    else
      match cleanLoop now rest with
      | Except.error e => Except.error e
      | Except.ok r => Except.ok (comp :: r)

/-- main.py `clean_competition_data` as a transformer of the stored
checkpoint: an empty store returns early; otherwise the cleaned list is
saved only when the whole loop succeeded, and any exception (caught by the
outer `except`) leaves the stored data untouched. -/
def clean_competition_data (store : List Competition) (now : PyDateTime) :
    List Competition :=
  if store.isEmpty then store
  else
    match cleanLoop now store with
    | Except.ok cleaned => cleaned
    | Except.error _ => store

/-! ## Concrete records used by witnesses and counterexamples -/

/-- A sample current instant. -/
def now0 : PyDateTime := ⟨2024, 6, 15, 12, 0, 0⟩

/-- A sample Kaggle record. -/
def compK : Competition :=
  { platform := "Kaggle", name := "Sample", url := "https://www.kaggle.com/competitions/sample",
    deadline := some "2030-01-01 00:00:00 UTC" }

/-- Record `a` of the diff example. -/
def compA : Competition :=
  { platform := "Kaggle", name := "A", url := "https://x/a" }

/-- Record `b` of the diff example. -/
def compB : Competition :=
  { platform := "Dacon", name := "B", url := "https://x/b" }

/-- A previously saved record with record `a`'s identity but an updated
name: equality for the diff is on `url` alone. -/
def compA2 : Competition :=
  { platform := "Kaggle", name := "A renamed", url := "https://x/a" }

/-- A Kaggle record whose deadline is one second after `now0`. -/
def kagFuture : Competition :=
  { platform := "Kaggle", name := "future", url := "https://x/f",
    deadline := some "2024-06-15 12:00:01 UTC" }

/-- A Kaggle record whose deadline equals `now0`. -/
def kagNow : Competition :=
  { platform := "Kaggle", name := "now", url := "https://x/n",
    deadline := some "2024-06-15 12:00:00 UTC" }

/-- A Kaggle record whose deadline is one second before `now0`. -/
def kagPast : Competition :=
  { platform := "Kaggle", name := "past", url := "https://x/p",
    deadline := some "2024-06-15 11:59:59 UTC" }

/-- A Dacon record: no deadline, only a schedule-window string. -/
def daconComp : Competition :=
  { platform := "Dacon", name := "dacon", url := "https://dacon.io/competitions/1",
    period := some "2024.01.01 ~ 2024.01.31" }

/-- A Kaggle record whose stored deadline string does not parse. -/
def compBadDeadline : Competition :=
  { platform := "Kaggle", name := "bad", url := "https://x/bad",
    deadline := some "not a date" }

/-- The retention example store. -/
def storeEx : List Competition := [kagFuture, kagNow, kagPast, daconComp]

/-- The schedule-page text node of the specification's extraction example. -/
def samplePeriodNode : String := "- 대회 기간 : 2024.01.01 10:00 ~ 2024.01.31 18:00"

/-! ## Supporting lemmas -/

theorem contains_iff_mem (l : List String) (a : String) : l.contains a = true ↔ a ∈ l :=
  List.elem_iff

theorem get_new_eq_filter (current saved : List Competition) :
    get_new_competitions current saved =
      current.filter (fun c => !((saved.map (fun x => x.url)).contains c.url)) := by
  simp only [get_new_competitions]
  apply List.filter_congr
  intro c hc
  rw [Bool.eq_iff_iff]
  constructor
  · intro h
    exact (List.mem_filter.mp ((contains_iff_mem _ _).mp h)).2
  · intro h
    exact (contains_iff_mem _ _).mpr
      (List.mem_filter.mpr ⟨List.mem_map.mpr ⟨c, hc, rfl⟩, h⟩)

theorem find_new_eq_filter (current previous : List Competition) :
    find_new_competitions current previous =
      current.filter (fun c => !((previous.map (fun x => x.url)).contains c.url)) := by
  simp only [find_new_competitions]
  apply List.filter_congr
  intro c hc
  rw [Bool.eq_iff_iff]
  constructor
  · intro h
    exact (List.mem_filter.mp ((contains_iff_mem _ _).mp h)).2
  · intro h
    exact (contains_iff_mem _ _).mpr
      (List.mem_filter.mpr ⟨List.mem_map.mpr ⟨c, hc, rfl⟩, h⟩)

theorem mem_filter_not_contains {c : Competition} {current : List Competition}
    {urls : List String}
    (h : c ∈ current.filter (fun x => !(urls.contains x.url))) : ¬ c.url ∈ urls := by
  intro hmem
  have h2 := (List.mem_filter.mp h).2
  rw [Bool.not_eq_true'] at h2
  have h3 := (contains_iff_mem urls c.url).mpr hmem
  rw [h2] at h3
  exact Bool.false_ne_true h3

theorem cleanLoop_ok (now : PyDateTime) (l : List Competition)
    (h : ∀ c ∈ l, c.platform = "Kaggle" → (c.deadline.bind parseDeadline).isSome = true) :
    cleanLoop now l = Except.ok (l.filter (keepCompetition now)) := by
  induction l with
  | nil => rfl
  | cons c rest ih =>
    have hrest : ∀ x ∈ rest, x.platform = "Kaggle" →
        (x.deadline.bind parseDeadline).isSome = true :=
      fun x hx => h x (List.mem_cons_of_mem _ hx)
    cases hp : c.platform == "Kaggle"
    case false =>
      simp [cleanLoop, hp, ih hrest, List.filter_cons, keepCompetition]
    case true =>
      have hps : c.platform = "Kaggle" := by simpa using hp
      have hsome := h c (List.mem_cons_self _ _) hps
      cases hd : c.deadline with
      | none => rw [hd] at hsome; simp at hsome
      | some s =>
        cases hpd : parseDeadline s with
        | none => rw [hd] at hsome; simp [hpd] at hsome
        | some dl =>
          cases hlt : now.ltB dl
          case false =>
            simp [cleanLoop, hp, hd, hpd, ih hrest, hlt, List.filter_cons,
              keepCompetition]
          case true =>
            simp [cleanLoop, hp, hd, hpd, ih hrest, hlt, List.filter_cons,
              keepCompetition]

theorem cleanLoop_error (now : PyDateTime) (l : List Competition)
    (h : ∃ c ∈ l, c.platform = "Kaggle" ∧ c.deadline.bind parseDeadline = none) :
    cleanLoop now l = Except.error () := by
  induction l with
  | nil => rcases h with ⟨c, hc, _⟩; cases hc
  | cons c rest ih =>
    rcases h with ⟨x, hx, hxp, hxd⟩
    rcases List.mem_cons.mp hx with rfl | hx'
    · have hp : (x.platform == "Kaggle") = true := by simpa using hxp
      cases hd : x.deadline with
      | none => simp [cleanLoop, hp, hd]
      | some s =>
        have hpd : parseDeadline s = none := by
          rw [hd] at hxd; simpa using hxd
        simp [cleanLoop, hp, hd, hpd]
    · have herr := ih ⟨x, hx', hxp, hxd⟩
      cases hpc : c.platform == "Kaggle"
      case false => simp [cleanLoop, hpc, herr]
      case true =>
        cases hd : c.deadline with
        | none => simp [cleanLoop, hpc, hd]
        | some s =>
          cases hpd : parseDeadline s with
          | none => simp [cleanLoop, hpc, hd, hpd]
          | some dl => simp [cleanLoop, hpc, hd, hpd, herr]

theorem filter_notification_map_notify (l : List Competition) :
    (l.map Event.notify).filter Event.isNotificationB = l.map Event.notify := by
  induction l with
  | nil => rfl
  | cons c rest ih => simp [Event.isNotificationB, ih]

theorem notifyPrecedesSave_map_notify (l : List Competition) :
    notifyPrecedesSave (l.map Event.notify) = false := by
  induction l with
  | nil => rfl
  | cons c rest ih =>
    simp only [List.map_cons, notifyPrecedesSave, ih, Bool.or_false]
    apply List.any_eq_false.mpr
    intro x hx
    rcases List.mem_map.mp hx with ⟨c2, _, rfl⟩
    simp [Event.isSaveB]

theorem listStartsWith_append (p l m : List Char) (h : listStartsWith p l = true) :
    listStartsWith p (l ++ m) = true := by
  induction p generalizing l with
  | nil => rfl
  | cons a ps ih =>
    cases l with
    | nil => cases h
    | cons c cs =>
      simp only [List.cons_append, listStartsWith, Bool.and_eq_true] at h ⊢
      exact ⟨h.1, ih cs h.2⟩

theorem append_data (a b : String) : (a ++ b).data = a.data ++ b.data := by
  cases a; cases b; rfl

theorem pyStartsWith_kagglePrefixed (ref : String) :
    pyStartsWith ("https://www.kaggle.com/competitions/" ++ ref) "http" = true := by
  unfold pyStartsWith
  rw [append_data]
  apply listStartsWith_append
  decide

/-! ## Claim C1 — DiffEngine soundness, completeness, order preservation -/

/-- Claim C1: both diff functions (`get_new_competitions` of main.py,
`find_new_competitions` of contest_noti_slackbot.py) return exactly those
records of `current` whose url is not among the urls of `previous`: the
result equals the stable filter of `current` by that predicate, every
record of the result has an identity absent from `previous`, every record
of `current` whose identity is in `previous` is absent from the result,
and the result is a subsequence of `current` (order preserved, never
re-sorted). -/
theorem c1_diff_exact_and_stable (current previous : List Competition) :
    get_new_competitions current previous =
        current.filter (fun c => !((previous.map (fun x => x.url)).contains c.url))
    ∧ find_new_competitions current previous =
        current.filter (fun c => !((previous.map (fun x => x.url)).contains c.url))
    ∧ (∀ c ∈ get_new_competitions current previous,
        ¬ c.url ∈ previous.map (fun x => x.url))
    ∧ (∀ c ∈ current, c.url ∈ previous.map (fun x => x.url) →
        ¬ c ∈ get_new_competitions current previous)
    ∧ (get_new_competitions current previous).Sublist current
    ∧ (∀ c ∈ find_new_competitions current previous,
        ¬ c.url ∈ previous.map (fun x => x.url))
    ∧ (∀ c ∈ current, c.url ∈ previous.map (fun x => x.url) →
        ¬ c ∈ find_new_competitions current previous)
    ∧ (find_new_competitions current previous).Sublist current := by
  refine ⟨get_new_eq_filter current previous, find_new_eq_filter current previous,
    ?_, ?_, ?_, ?_, ?_, ?_⟩
  · intro c hc
    rw [get_new_eq_filter] at hc
    exact mem_filter_not_contains hc
  · intro c _ hurl hres
    rw [get_new_eq_filter] at hres
    exact mem_filter_not_contains hres hurl
  · rw [get_new_eq_filter]
    exact List.filter_sublist current
  · intro c hc
    rw [find_new_eq_filter] at hc
    exact mem_filter_not_contains hc
  · intro c _ hurl hres
    rw [find_new_eq_filter] at hres
    exact mem_filter_not_contains hres hurl
  · rw [find_new_eq_filter]
    exact List.filter_sublist current

/-- Witness for C1 at a concrete input: `current = [a, b]` against a saved
state holding `a`'s identity (under a changed name) yields exactly `[b]`,
and `a` is excluded. -/
theorem c1_witness :
    get_new_competitions [compA, compB] [compA2] = [compB]
    ∧ ¬ compA ∈ get_new_competitions [compA, compB] [compA2] :=
  ⟨(c1_diff_exact_and_stable [compA, compB] [compA2]).1.trans (by decide),
   (c1_diff_exact_and_stable [compA, compB] [compA2]).2.2.2.1 compA (by decide) (by decide)⟩

/-! ## Claim C2 — checkpoint persistence per cycle -/

/-- Counterexample to Claim C2 as stated: with a non-empty stored
checkpoint and an empty fetch result (both fetchers degraded by failure),
main.py's `check_new_competitions` returns early — the checkpoint keeps
its old contents instead of being overwritten with the empty fetch result,
and the trace shows the cycle never reaches its persisting or notifying
phase. -/
theorem c2_counterexample :
    (main_check_new_competitions [compK] (get_kaggle_competitions (Except.error ()) now0)
        (get_dacon_competitions (Except.error ()))).1 = [compK]
    ∧ (main_check_new_competitions [compK] (get_kaggle_competitions (Except.error ()) now0)
        (get_dacon_competitions (Except.error ()))).2 = [Event.load, Event.fetch]
    ∧ [compK] ≠ ([] : List Competition) := by decide

/-- Claim C2 as amended: the contest_noti_slackbot.py orchestrator
persists the freshly fetched set unconditionally (a save of exactly that
set occurs in every cycle, empty or not); the main.py orchestrator does so
only when the fetch result is non-empty, and on an empty fetch result it
returns early, leaving the checkpoint unchanged and skipping both the
persisting and the notifying phase. -/
theorem c2_checkpoint_persistence (saved kaggle dacon : List Competition) :
    (slack_check_new_competitions saved kaggle dacon).1 = kaggle ++ dacon
    ∧ Event.save (kaggle ++ dacon) ∈ (slack_check_new_competitions saved kaggle dacon).2
    ∧ (kaggle ++ dacon ≠ [] →
        (main_check_new_competitions saved kaggle dacon).1 = kaggle ++ dacon
        ∧ Event.save (kaggle ++ dacon) ∈ (main_check_new_competitions saved kaggle dacon).2)
    ∧ (kaggle ++ dacon = [] →
        (main_check_new_competitions saved kaggle dacon).1 = saved
        ∧ (main_check_new_competitions saved kaggle dacon).2 = [Event.load, Event.fetch]) := by
  refine ⟨rfl, ?_, ?_, ?_⟩
  · simp [slack_check_new_competitions]
  · intro h
    have hne : (kaggle ++ dacon).isEmpty = false := by
      simpa [List.isEmpty_iff] using h
    constructor
    · simp [main_check_new_competitions, hne]
    · simp [main_check_new_competitions, hne]
  · intro h
    have he : (kaggle ++ dacon).isEmpty = true := by
      simp [List.isEmpty_iff, h]
    exact ⟨by simp [main_check_new_competitions, he], by simp [main_check_new_competitions, he]⟩

/-- Witness for C2 (amended) at a concrete input: a non-empty fetch result
is persisted by the main.py orchestrator. -/
theorem c2_witness :
    (main_check_new_competitions [] [compK] []).1 = [compK] ++ []
    ∧ Event.save ([compK] ++ []) ∈ (main_check_new_competitions [] [compK] []).2 :=
  (c2_checkpoint_persistence [] [compK] []).2.2.1 (by decide)

/-! ## Claim C3 — per-cycle notification policy -/

/-- Counterexample to Claim C3 as stated: a main.py cycle whose computed
new-record set is empty (the fetched record was already saved) delivers no
notification at all — there is no "no new competitions" message variant in
main.py, so the count is zero, not one. -/
theorem c3_counterexample :
    (main_check_new_competitions [compK] [compK] []).2 =
        [Event.load, Event.fetch, Event.diff, Event.save [compK]]
    ∧ (main_check_new_competitions [compK] [compK] []).2.filter Event.isNotificationB = [] := by
  decide

/-- Claim C3 as amended: the contest_noti_slackbot.py orchestrator sends
exactly one "no new competitions" message when the new-record set is empty
and exactly one notification per new record otherwise; the main.py
orchestrator sends one notification per new record but sends nothing at
all when the new-record set is empty. -/
theorem c3_notification_policy (saved kaggle dacon : List Competition) :
    (find_new_competitions (kaggle ++ dacon) saved = [] →
        (slack_check_new_competitions saved kaggle dacon).2.filter Event.isNotificationB =
          [Event.notifyNone])
    ∧ (find_new_competitions (kaggle ++ dacon) saved ≠ [] →
        (slack_check_new_competitions saved kaggle dacon).2.filter Event.isNotificationB =
          (find_new_competitions (kaggle ++ dacon) saved).map Event.notify)
    ∧ (kaggle ++ dacon ≠ [] →
        (main_check_new_competitions saved kaggle dacon).2.filter Event.isNotificationB =
          (get_new_competitions (kaggle ++ dacon) saved).map Event.notify) := by
  refine ⟨?_, ?_, ?_⟩
  · intro h
    simp [slack_check_new_competitions, List.filter_append, h, Event.isNotificationB]
  · intro h
    have hne : (find_new_competitions (kaggle ++ dacon) saved).isEmpty = false := by
      simpa [List.isEmpty_iff] using h
    simp [slack_check_new_competitions, List.filter_append, hne, Event.isNotificationB,
      filter_notification_map_notify]
  · intro h
    have hne : (kaggle ++ dacon).isEmpty = false := by
      simpa [List.isEmpty_iff] using h
    simp [main_check_new_competitions, hne, List.filter_append, Event.isNotificationB,
      filter_notification_map_notify]

/-- Witness for C3 (amended) at a concrete input: a slackbot cycle with
one genuinely new record delivers exactly the per-record notifications. -/
theorem c3_witness :
    (slack_check_new_competitions [] [compK] []).2.filter Event.isNotificationB =
      (find_new_competitions ([compK] ++ []) []).map Event.notify :=
  (c3_notification_policy [] [compK] []).2.1 (by decide)

/-! ## Claim C4 — schedule period extraction -/

/-- Counterexample to Claim C4 as stated: on the page containing
`"- 대회 기간 : 2024.01.01 10:00 ~ 2024.01.31 18:00"`, the
contest_noti_slackbot.py `get_competition_period` (one of the two cited
implementations) only strips the label and surrounding whitespace — it
performs no clock-time removal and no tilde re-join — so it yields the
unstripped string, not `"2024.01.01 ~ 2024.01.31"`. -/
theorem c4_counterexample :
    slack_get_competition_period (Except.ok [samplePeriodNode]) =
        some "2024.01.01 10:00 ~ 2024.01.31 18:00"
    ∧ slack_get_competition_period (Except.ok [samplePeriodNode]) ≠
        some "2024.01.01 ~ 2024.01.31" := by decide

/-- Claim C4 as amended: the main.py `get_competition_period` behaves as
claimed — it strips the label prefix and whitespace, removes embedded
clock-time substrings, and when the remainder splits into exactly two
parts on a tilde re-joins them as `start ~ end` with single surrounding
spaces; on the sample input it yields `"2024.01.01 ~ 2024.01.31"`.  The
contest_noti_slackbot.py variant only strips the label prefix and
whitespace, yielding `"2024.01.01 10:00 ~ 2024.01.31 18:00"` on the same
input. -/
theorem c4_period_extraction :
    main_get_competition_period (Except.ok [samplePeriodNode]) =
        some "2024.01.01 ~ 2024.01.31"
    ∧ slack_get_competition_period (Except.ok [samplePeriodNode]) =
        some "2024.01.01 10:00 ~ 2024.01.31 18:00"
    ∧ ∀ t p1 p2,
        splitOnTilde (stripClockTimes (pyStrip (pyReplace t periodLabelFull ""))) = [p1, p2] →
        main_process_period t = pyStrip p1 ++ " ~ " ++ pyStrip p2 := by
  refine ⟨by decide, by decide, ?_⟩
  intro t p1 p2 h
  simp [main_process_period, h]

/-- Witness for C4 (amended) on the sample text node, whose cleaned text
splits on the tilde into `"2024.01.01  "` and `" 2024.01.31 "`. -/
theorem c4_witness :
    main_process_period samplePeriodNode =
      pyStrip "2024.01.01  " ++ " ~ " ++ pyStrip " 2024.01.31 " :=
  c4_period_extraction.2.2 samplePeriodNode "2024.01.01  " " 2024.01.31 " (by decide)

/-! ## Claim C5 — retention of checkpoint records -/

/-- Claim C5: when every Kaggle record of the store has a parseable
deadline, `clean_competition_data` keeps exactly the records allowed by
`keepCompetition`: a Kaggle record (absolute deadline) is kept iff its
deadline is strictly after the current instant, and every non-Kaggle
(Dacon, schedule-window-only) record is retained unconditionally. -/
theorem c5_retention (store : List Competition) (now : PyDateTime)
    (h : ∀ c ∈ store, c.platform = "Kaggle" → (c.deadline.bind parseDeadline).isSome = true) :
    clean_competition_data store now = store.filter (keepCompetition now)
    ∧ (∀ c ∈ store, c.platform = "Kaggle" → ∀ dl, c.deadline.bind parseDeadline = some dl →
        (c ∈ clean_competition_data store now ↔ now.ltB dl = true))
    ∧ (∀ c ∈ store, c.platform ≠ "Kaggle" → c ∈ clean_competition_data store now) := by
  have hmain : clean_competition_data store now = store.filter (keepCompetition now) := by
    cases store with
    | nil => rfl
    | cons c rest =>
      simp only [clean_competition_data, List.isEmpty_cons, cleanLoop_ok now _ h]
      simp
  refine ⟨hmain, ?_, ?_⟩
  · intro c hc hp dl hdl
    rw [hmain, List.mem_filter]
    have hkeep : keepCompetition now c = now.ltB dl := by
      cases hd : c.deadline with
      | none => rw [hd] at hdl; simp at hdl
      | some s =>
        rw [hd] at hdl
        simp only [Option.some_bind] at hdl
        have hpb : (c.platform == "Kaggle") = true := by simpa using hp
        simp [keepCompetition, hpb, hd, hdl]
    constructor
    · intro hin
      rw [← hkeep]
      exact hin.2
    · intro hlt
      exact ⟨hc, hkeep.trans hlt⟩
  · intro c hc hp
    rw [hmain, List.mem_filter]
    refine ⟨hc, ?_⟩
    have hpb : (c.platform == "Kaggle") = false := by
      simpa using hp
    simp [keepCompetition, hpb]

/-- Witness for C5 at a concrete store and instant: the deadline one
second in the future is kept, the deadlines at and one second before the
current instant are dropped, and the Dacon record survives. -/
theorem c5_witness :
    clean_competition_data storeEx now0 = [kagFuture, daconComp] :=
  ((c5_retention storeEx now0 (by decide)).1).trans (by decide)

/-! ## Claim C6 — sentinel versus absence in the period extractor -/

/-- Claim C6: both `get_competition_period` variants return the fixed
sentinel string `"기간 정보를 찾을 수 없습니다."` (not empty, not an
absence) when no text node of the page contains the period label, and
return the absence `none` when an exception occurs during extraction; the
sentinel result and the absence result are distinct, so callers can tell
"source had no period info" from "extractor malfunctioned". -/
theorem c6_sentinel_and_absence (nodes : List String) :
    main_get_competition_period (Except.error ()) = none
    ∧ slack_get_competition_period (Except.error ()) = none
    ∧ ((∀ t ∈ nodes, hasPeriodLabel t = false) →
        main_get_competition_period (Except.ok nodes) = some periodSentinel
        ∧ slack_get_competition_period (Except.ok nodes) = some periodSentinel)
    ∧ periodSentinel ≠ ""
    ∧ some periodSentinel ≠ (none : Option String) := by
  refine ⟨rfl, rfl, ?_, by decide, Option.some_ne_none _⟩
  intro h
  have hf : nodes.find? hasPeriodLabel = none :=
    List.find?_eq_none.mpr (by intro x hx; simp [h x hx])
  constructor
  · simp [main_get_competition_period, hf]
  · simp [slack_get_competition_period, hf]

/-- Witness for C6 on a page with no label-bearing text node. -/
theorem c6_witness :
    main_get_competition_period (Except.ok ["no period info"]) = some periodSentinel
    ∧ slack_get_competition_period (Except.ok ["no period info"]) = some periodSentinel :=
  (c6_sentinel_and_absence ["no period info"]).2.2.1 (by decide)

/-! ## Claim C7 — phase order within a cycle -/

/-- Counterexample to Claim C7 as stated: in a main.py cycle with one new
record the per-record notification is delivered at trace position 3,
strictly before the checkpoint write at position 4 — notification happens
before the freshly-fetched set is persisted. -/
theorem c7_counterexample :
    (main_check_new_competitions [] [compK] []).2 =
        [Event.load, Event.fetch, Event.diff, Event.notify compK, Event.save [compK]]
    ∧ notifyPrecedesSave (main_check_new_competitions [] [compK] []).2 = true := by decide

/-- Claim C7 as amended: the contest_noti_slackbot.py orchestrator runs
fetch, diff, persist, notify in that order — its checkpoint write always
precedes every notification (no per-record notification ever precedes a
save in its trace) — while the main.py orchestrator runs fetch, diff,
notify, persist: on a non-empty fetch its per-record notifications all
precede the checkpoint write. -/
theorem c7_phase_order (saved kaggle dacon : List Competition) :
    (slack_check_new_competitions saved kaggle dacon).2 =
        [Event.load, Event.fetch, Event.diff, Event.save (kaggle ++ dacon)] ++
          (if (find_new_competitions (kaggle ++ dacon) saved).isEmpty then [Event.notifyNone]
           else (find_new_competitions (kaggle ++ dacon) saved).map Event.notify)
    ∧ notifyPrecedesSave (slack_check_new_competitions saved kaggle dacon).2 = false
    ∧ (kaggle ++ dacon ≠ [] →
        (main_check_new_competitions saved kaggle dacon).2 =
          [Event.load, Event.fetch, Event.diff] ++
            (get_new_competitions (kaggle ++ dacon) saved).map Event.notify ++
            [Event.save (kaggle ++ dacon)]) := by
  refine ⟨rfl, ?_, ?_⟩
  · simp only [slack_check_new_competitions]
    show notifyPrecedesSave
      ([Event.load, Event.fetch, Event.diff, Event.save (kaggle ++ dacon)] ++
        (if (find_new_competitions (kaggle ++ dacon) saved).isEmpty then [Event.notifyNone]
         else (find_new_competitions (kaggle ++ dacon) saved).map Event.notify)) = false
    simp only [List.cons_append, List.nil_append, notifyPrecedesSave]
    cases (find_new_competitions (kaggle ++ dacon) saved).isEmpty
    · simp [notifyPrecedesSave_map_notify]
    · simp [notifyPrecedesSave]
  · intro h
    have hne : (kaggle ++ dacon).isEmpty = false := by
      simpa [List.isEmpty_iff] using h
    simp [main_check_new_competitions, hne]

/-- Witness for C7 (amended) at a concrete input: the main.py trace with
one new record shows diff, then the notification, then the save. -/
theorem c7_witness :
    (main_check_new_competitions [] [compK] []).2 =
      [Event.load, Event.fetch, Event.diff] ++
        (get_new_competitions ([compK] ++ []) []).map Event.notify ++
        [Event.save ([compK] ++ [])] :=
  (c7_phase_order [] [compK] []).2.2 (by decide)

/-! ## Claim C8 — fetcher failure degrades to an empty sequence -/

/-- Claim C8: for both source fetchers, a failure of the whole source —
any exception raised while fetching (authentication, network, parsing),
modelled by the `Except.error` input to the embedded fetcher — yields the
empty record sequence; the fetchers are total functions, so no exception
propagates to the caller and the cycle continues. -/
theorem c8_fetcher_failure_degrades (e : Unit) (now : PyDateTime) :
    get_kaggle_competitions (Except.error e) now = []
    ∧ get_dacon_competitions (Except.error e) = [] :=
  ⟨rfl, rfl⟩

/-! ## Claim C9 — Kaggle URL normalization -/

/-- Claim C9: the Kaggle fetchers' URL normalization uses the raw
reference verbatim when it already begins with the scheme prefix `http`
(as the source tests via `startswith('http')`) and otherwise prefixes it
with `https://www.kaggle.com/competitions/`; the normalization is
idempotent, so normalizing an already-normalized URL leaves it unchanged
and double-prefixing cannot occur. -/
theorem c9_url_normalization (ref : String) :
    (pyStartsWith ref "http" = true → kaggleCompetitionUrl ref = ref)
    ∧ (pyStartsWith ref "http" = false →
        kaggleCompetitionUrl ref = "https://www.kaggle.com/competitions/" ++ ref)
    ∧ kaggleCompetitionUrl (kaggleCompetitionUrl ref) = kaggleCompetitionUrl ref := by
  refine ⟨fun h => by simp [kaggleCompetitionUrl, h],
    fun h => by simp [kaggleCompetitionUrl, h], ?_⟩
  cases h : pyStartsWith ref "http"
  · simp [kaggleCompetitionUrl, h, pyStartsWith_kagglePrefixed ref]
  · simp [kaggleCompetitionUrl, h]

/-- Witness for C9 at concrete references: a bare slug is prefixed, an
absolute URL is kept verbatim, and re-normalizing the prefixed slug
changes nothing. -/
theorem c9_witness :
    kaggleCompetitionUrl "https://www.kaggle.com/competitions/titanic" =
        "https://www.kaggle.com/competitions/titanic"
    ∧ kaggleCompetitionUrl "titanic" = "https://www.kaggle.com/competitions/" ++ "titanic"
    ∧ kaggleCompetitionUrl (kaggleCompetitionUrl "titanic") = kaggleCompetitionUrl "titanic" :=
  ⟨(c9_url_normalization "https://www.kaggle.com/competitions/titanic").1 (by decide),
   (c9_url_normalization "titanic").2.1 (by decide),
   (c9_url_normalization "titanic").2.2⟩

/-! ## Claim C10 — unparseable stored deadline leaves the checkpoint intact -/

/-- Claim C10: if the stored checkpoint contains any Kaggle record whose
`deadline` is missing or not parseable in the `"%Y-%m-%d %H:%M:%S UTC"`
format, `clean_competition_data` leaves the stored checkpoint entirely
unchanged — the `strptime` exception aborts the pruning loop before any
save, the catch-all handler swallows it, and no partially pruned list is
ever written.  (The embedded transformer is a total function: no exception
escapes.) -/
theorem c10_bad_deadline_keeps_store (store : List Competition) (now : PyDateTime)
    (h : ∃ c ∈ store, c.platform = "Kaggle" ∧ c.deadline.bind parseDeadline = none) :
    clean_competition_data store now = store := by
  rcases h with ⟨c, hc, hcp, hcd⟩
  cases store with
  | nil => cases hc
  | cons a rest =>
    simp only [clean_competition_data, List.isEmpty_cons,
      cleanLoop_error now _ ⟨c, hc, hcp, hcd⟩]
    simp

/-- Witness for C10: a store holding a record kept by retention, one due
for pruning, and a Kaggle record with a malformed deadline string is
returned entirely unchanged — including the record that would otherwise
have been pruned. -/
theorem c10_witness :
    clean_competition_data [kagFuture, kagPast, compBadDeadline] now0 =
      [kagFuture, kagPast, compBadDeadline] :=
  c10_bad_deadline_keeps_store [kagFuture, kagPast, compBadDeadline] now0 (by decide)
